import Mathlib

/-!
Shallow embedding of `src/api.py` (MicroservicioAlmacen): a FastAPI CRUD
service over a single SQLAlchemy-mapped `Producto` table.

Modelling choices:
* `float` prices become `Rat`; `int` ids and stock become `Int`.
* The database state is `Almacen`: the table rows plus the autoincrement
  counter backing `id` (PostgreSQL sequence, starts at 1).
* Pydantic validation (which FastAPI runs before the handler body) is made
  explicit at the head of each endpoint function.
* The SQLAlchemy schema (`nullable=False` columns, `String(100)`,
  `String(350)`, `String(50)` on categoria) is enforced at commit time by
  `commitRow`: the in-memory ORM object (`ProductoRow`, whose attributes may
  hold `None` after `setattr`) becomes a stored row only if every
  non-nullable column is present and every varchar fits; otherwise the
  commit raises and the transaction rolls back (HTTP 500, state unchanged).
* `model_dump(exclude_unset=True)` distinguishes a field absent from the
  request body from a field explicitly set to `null`; the patch type
  `ProductoUpdate` therefore uses `Option (Option _)` per field:
  `none` = unset, `some none` = explicit null, `some (some v)` = value.
-/

/-- A stored row of the `productos` table (`class Producto`, src/api.py:24-31).
All columns except `categoria` are `nullable=False`, so a *stored* row always
has them present. -/
structure Producto where
  id : Int
  nombre : String
  descripcion : String
  precio : Rat
  stock : Int
  categoria : Option String
deriving DecidableEq, Repr

/-- The in-memory ORM object during a request: after `setattr`, any attribute
may hold `None`; the schema is only enforced when the session flushes. -/
structure ProductoRow where
  id : Int
  nombre : Option String
  descripcion : Option String
  precio : Option Rat
  stock : Option Int
  categoria : Option String
deriving DecidableEq, Repr

/-- Column constraints of the `productos` table: `String(100)`, `String(350)`,
`String(50)` (src/api.py:27-31). PostgreSQL varchar(n) rejects longer values. -/
def rowFits (r : ProductoRow) : Bool :=
  (match r.nombre with | some n => n.length ≤ 100 | none => true) &&
  (match r.descripcion with | some d => d.length ≤ 350 | none => true) &&
  (match r.categoria with | some c => c.length ≤ 50 | none => true)

/-- Flushing the ORM object to the table: succeeds iff every `nullable=False`
column is present and every varchar fits its declared length; otherwise the
driver raises and the transaction is rolled back. -/
def commitRow (r : ProductoRow) : Option Producto :=
  match r.nombre, r.descripcion, r.precio, r.stock with
  | some n, some d, some pr, some st =>
      if rowFits r then some ⟨r.id, n, d, pr, st, r.categoria⟩ else none
  | _, _, _, _ => none

/-- Request body of `POST /productos` (`class ProductoCreate(ProductoBase)`,
src/api.py:34-43): all fields required except `categoria`. -/
structure ProductoCreate where
  nombre : String
  descripcion : String
  precio : Rat
  stock : Int
  categoria : Option String
deriving DecidableEq, Repr

/-- Pydantic field constraints of `ProductoBase` (src/api.py:36-40):
`min_length=1, max_length=100` on nombre, `min_length=1, max_length=350` on
descripcion, `gt=0.0` on precio, `ge=0` on stock; `categoria` unconstrained. -/
def ProductoCreate.valid (p : ProductoCreate) : Bool :=
  1 ≤ p.nombre.length && p.nombre.length ≤ 100 &&
  1 ≤ p.descripcion.length && p.descripcion.length ≤ 350 &&
  decide (0 < p.precio) && decide (0 ≤ p.stock)

/-- Request body of `PUT /productos/{id}` (`class ProductoUpdate`,
src/api.py:45-51): every field `Optional` with default `None`.
Outer `Option`: was the field present in the request body (Pydantic
"set")? Inner `Option`: the JSON value, possibly `null`. -/
structure ProductoUpdate where
  nombre : Option (Option String)
  descripcion : Option (Option String)
  precio : Option (Option Rat)
  stock : Option (Option Int)
  categoria : Option (Option String)
deriving DecidableEq, Repr

/-- A constraint on an `Optional` Pydantic field applies only when a non-null
value is supplied; an absent field or an explicit `null` passes. -/
def optValid {α : Type} (f : α → Bool) : Option (Option α) → Bool
  | some (some v) => f v
  | _ => true

/-- Pydantic validation of `ProductoUpdate` (src/api.py:47-51): same bounds
as creation, but each applies only when the field carries a non-null value. -/
def ProductoUpdate.valid (u : ProductoUpdate) : Bool :=
  optValid (fun s => 1 ≤ s.length && s.length ≤ 100) u.nombre &&
  optValid (fun s => 1 ≤ s.length && s.length ≤ 350) u.descripcion &&
  optValid (fun r => decide (0 < r)) u.precio &&
  optValid (fun n => decide (0 ≤ n)) u.stock

/-- The update with body `{"stock": v}` and nothing else. -/
def stockOnly (v : Int) : ProductoUpdate :=
  ⟨none, none, none, some (some v), none⟩

/-- HTTP responses the service produces. -/
inductive Response where
  | created : Producto → Response
  | ok : Producto → Response
  | okList : List Producto → Response
  | noContent : Response
  | notFound : String → Response
  | validationError : Response
  | serverError : Response
deriving DecidableEq, Repr

/-- HTTP status code of a response. -/
def Response.status : Response → Nat
  | created _ => 201
  | ok _ => 200
  | okList _ => 200
  | noContent => 204
  | notFound _ => 404
  | validationError => 422
  | serverError => 500

/-- Database state: the rows of the `productos` table plus the autoincrement
sequence backing `id` (src/api.py:26). -/
structure Almacen where
  productos : List Producto
  nextId : Int
deriving DecidableEq, Repr

/-- The empty database right after `create_all`: no rows, sequence at 1. -/
def Almacen.init : Almacen := ⟨[], 1⟩

/-- `db.get(Producto, producto_id)`: primary-key lookup. -/
def Almacen.get (db : Almacen) (pid : Int) : Option Producto :=
  db.productos.find? (fun p => p.id == pid)

/-- `crear_producto` (src/api.py:95-108), with the Pydantic validation FastAPI
performs before entering the handler made explicit.
`Producto(**producto.model_dump())` builds the ORM object (no id supplied by
the caller; the sequence assigns it), `db.add`/`db.commit` flush it. -/
def crear_producto (producto : ProductoCreate) (db : Almacen) :
    Response × Almacen :=
  if producto.valid then
    let row : ProductoRow :=
      ⟨db.nextId, some producto.nombre, some producto.descripcion,
        some producto.precio, some producto.stock, producto.categoria⟩
    match commitRow row with
    | some p =>
        (Response.created p, ⟨db.productos ++ [p], db.nextId + 1⟩)
    | none => (Response.serverError, db)
  else (Response.validationError, db)

/-- Insertion sort of rows by ascending id, embedding
`select(Producto).order_by(Producto.id)`. -/
def sortById (l : List Producto) : List Producto :=
  List.insertionSort (fun p q => p.id ≤ q.id) l

/-- `obtener_productos` (src/api.py:110-116): all rows ordered by id. -/
def obtener_productos (db : Almacen) : Response × Almacen :=
  (Response.okList (sortById db.productos), db)

/-- `obtener_producto` (src/api.py:118-126). -/
def obtener_producto (producto_id : Int) (db : Almacen) :
    Response × Almacen :=
  match db.get producto_id with
  | none => (Response.notFound "Producto no encontrado", db)
  | some p => (Response.ok p, db)

/-- The `setattr` loop over `producto_update.model_dump(exclude_unset=True)`
(src/api.py:139-141): every field *set* in the request body is written onto
the ORM object — including fields explicitly set to `null`; only unset fields
keep their stored value. `id` is not a `ProductoUpdate` field, so it is never
written. -/
def applyUpdate (p : Producto) (u : ProductoUpdate) : ProductoRow :=
  { id := p.id
    nombre := match u.nombre with | none => some p.nombre | some v => v
    descripcion :=
      match u.descripcion with | none => some p.descripcion | some v => v
    precio := match u.precio with | none => some p.precio | some v => v
    stock := match u.stock with | none => some p.stock | some v => v
    categoria :=
      match u.categoria with | none => p.categoria | some v => v }

/-- `actualizar_producto` (src/api.py:128-146), validation made explicit:
lookup, 404 if absent, else `setattr` the set fields and commit. -/
def actualizar_producto (producto_id : Int) (producto_update : ProductoUpdate)
    (db : Almacen) : Response × Almacen :=
  if producto_update.valid then
    match db.get producto_id with
    | none => (Response.notFound "Producto no encontrado", db)
    | some p =>
        match commitRow (applyUpdate p producto_update) with
        | some p2 =>
            (Response.ok p2,
              ⟨db.productos.map (fun q => if q.id == producto_id then p2 else q),
                db.nextId⟩)
        | none => (Response.serverError, db)
  else (Response.validationError, db)

/-- `eliminar_producto` (src/api.py:148-158): lookup, 404 if absent, else
`db.delete` the row (hard delete of the row with that primary key) and 204. -/
def eliminar_producto (producto_id : Int) (db : Almacen) :
    Response × Almacen :=
  match db.get producto_id with
  | none => (Response.notFound "Producto no encontrado", db)
  | some _ =>
      (Response.noContent,
        ⟨db.productos.filter (fun q => q.id != producto_id), db.nextId⟩)

/-- Schema well-formedness of a stored row: what holds of any row that ever
passed `commitRow`. -/
def rowOK (p : Producto) : Bool :=
  p.nombre.length ≤ 100 && p.descripcion.length ≤ 350 &&
  (match p.categoria with | some c => c.length ≤ 50 | none => true)

/-- Reachable-state well-formedness: the sequence is positive, every stored
id was drawn from the sequence (hence below its current value), ids are
distinct, and every stored row respects the column constraints. -/
def Almacen.WF (db : Almacen) : Prop :=
  1 ≤ db.nextId ∧
  (∀ p ∈ db.productos, p.id < db.nextId ∧ rowOK p = true) ∧
  (db.productos.map (fun p => p.id)).Nodup

/-- The row the store builds for a successful creation: the id comes from the
store's own sequence (never from the request body, which has no id field),
the data from the body. -/
def newProd (c : ProductoCreate) (db : Almacen) : Producto :=
  ⟨db.nextId, c.nombre, c.descripcion, c.precio, c.stock, c.categoria⟩

/-- The database state after a successful insert. -/
def extendDb (c : ProductoCreate) (db : Almacen) : Almacen :=
  ⟨db.productos ++ [newProd c db], db.nextId + 1⟩

/-- A creation request the whole pipeline accepts: the Pydantic constraints
plus the un-validated VARCHAR(50) bound on `categoria` that the table
enforces at insert time. -/
def goodCreate (c : ProductoCreate) : Bool :=
  c.valid && (match c.categoria with | some s => s.length ≤ 50 | none => true)

/-- Run a sequence of creation requests, threading the database state. -/
def runCreates (cs : List ProductoCreate) (db : Almacen) : Almacen :=
  cs.foldl (fun d c => (crear_producto c d).2) db

/-- The ids returned by the successful creations of a request sequence. -/
def createdIds (cs : List ProductoCreate) (db : Almacen) : List Int :=
  match cs with
  | [] => []
  | c :: rest =>
      match crear_producto c db with
      | (Response.created p, db2) => p.id :: createdIds rest db2
      | (_, db2) => createdIds rest db2

/-- The data invariant of §3 of the spec on every stored row. -/
def DataInv (db : Almacen) : Prop :=
  ∀ p ∈ db.productos,
    0 < p.precio ∧ 0 ≤ p.stock ∧ p.nombre ≠ "" ∧ p.descripcion ≠ ""

theorem create_valid_spec (c : ProductoCreate) (h : c.valid = true) :
    1 ≤ c.nombre.length ∧ c.nombre.length ≤ 100 ∧
    1 ≤ c.descripcion.length ∧ c.descripcion.length ≤ 350 ∧
    0 < c.precio ∧ 0 ≤ c.stock := by
  simp [ProductoCreate.valid] at h
  tauto

theorem commitRow_some (r : ProductoRow) (p : Producto)
    (h : commitRow r = some p) :
    r.nombre = some p.nombre ∧ r.descripcion = some p.descripcion ∧
    r.precio = some p.precio ∧ r.stock = some p.stock ∧
    r.categoria = p.categoria ∧ p.id = r.id ∧ rowOK p = true := by
  obtain ⟨i, nom, des, pre, st, cat⟩ := r
  cases nom <;> cases des <;> cases pre <;> cases st <;>
    simp [commitRow] at h
  rcases h with ⟨hfit, hp⟩
  subst hp
  simp_all [rowFits, rowOK]

theorem crear_producto_good (c : ProductoCreate) (db : Almacen)
    (h : goodCreate c = true) :
    crear_producto c db = (Response.created (newProd c db), extendDb c db) := by
  rw [goodCreate, Bool.and_eq_true] at h
  obtain ⟨hv, hcat⟩ := h
  obtain ⟨-, hn, -, hd, -, -⟩ := create_valid_spec c hv
  rw [crear_producto, if_pos hv]
  have hfits : rowFits ⟨db.nextId, some c.nombre, some c.descripcion,
      some c.precio, some c.stock, c.categoria⟩ = true := by
    rcases hcc : c.categoria with _ | s <;>
      simp_all [rowFits]
  simp only [commitRow, hfits, if_pos]
  rfl

theorem crear_producto_not_good (c : ProductoCreate) (db : Almacen)
    (h : goodCreate c = false) :
    (crear_producto c db).2 = db ∧
    ∀ p, (crear_producto c db).1 ≠ Response.created p := by
  by_cases hv : c.valid
  · rw [goodCreate, hv, Bool.true_and] at h
    rcases hcc : c.categoria with _ | s
    · rw [hcc] at h; simp at h
    · rw [hcc] at h
      have hfits : rowFits ⟨db.nextId, some c.nombre, some c.descripcion,
          some c.precio, some c.stock, c.categoria⟩ = false := by
        simp_all [rowFits]
      rw [crear_producto, if_pos hv]
      simp only [commitRow, hfits]
      simp
  · rw [crear_producto, if_neg hv]
    simp

theorem ne_empty_of_one_le_length {s : String} (h : 1 ≤ s.length) :
    s ≠ "" := by
  intro he
  subst he
  simp at h

theorem Almacen.get_mem (db : Almacen) (pid : Int) (p : Producto)
    (h : db.get pid = some p) : p ∈ db.productos ∧ p.id = pid := by
  refine ⟨List.mem_of_find?_eq_some h, ?_⟩
  simpa using List.find?_some h

theorem get_after_delete (db : Almacen) (pid : Int) :
    ((eliminar_producto pid db).2).get pid = none := by
  rcases hg : db.get pid with _ | p
  · simp [eliminar_producto, hg]
  · have hst : (eliminar_producto pid db).2
        = ⟨db.productos.filter (fun q => q.id != pid), db.nextId⟩ := by
      simp [eliminar_producto, hg]
    rw [hst, Almacen.get, List.find?_eq_none]
    intro x hx
    have hxf := List.of_mem_filter hx
    simpa using hxf

-- Concrete inputs reused by witnesses and counterexamples.

def pSample : Producto := ⟨1, "Monitor", "Pantalla 4K", 399, 75, some "TV"⟩

def dbSample : Almacen := ⟨[pSample], 2⟩

def cSample : ProductoCreate := ⟨"Monitor", "Pantalla 4K", 399, 75, some "TV"⟩

/-- The update request whose body is exactly `{"precio": null}`. -/
def uNullPrecio : ProductoUpdate := ⟨none, none, some none, none, none⟩

/-- A creation request that passes every Pydantic constraint but whose
51-character categoria exceeds the `String(50)` column. -/
def c2bad : ProductoCreate :=
  ⟨"Monitor", "Pantalla 4K", 399, 75,
    some "AAAAAAAAAAAAAAAAAAAAAAAAAAAAAAAAAAAAAAAAAAAAAAAAAAA"⟩

/-- C4: a creation request with `precio ≤ 0` or `stock < 0` fails Pydantic
validation, gets HTTP 422, reaches no persistence call, and leaves the store
(and hence the listing count) unchanged. -/
theorem C4_invalid_create_rejected (c : ProductoCreate) (db : Almacen)
    (h : c.precio ≤ 0 ∨ c.stock < 0) :
    crear_producto c db = (Response.validationError, db) ∧
    Response.validationError.status = 422 ∧
    ((crear_producto c db).2).productos.length = db.productos.length ∧
    (obtener_productos ((crear_producto c db).2)).1
      = (obtener_productos db).1 := by
  have hv : ¬ c.valid = true := by
    intro hv
    obtain ⟨-, -, -, -, hp, hs⟩ := create_valid_spec c hv
    rcases h with h | h
    · exact absurd hp (not_lt.2 h)
    · exact absurd hs (not_le.2 h)
  rw [crear_producto, if_neg hv]
  exact ⟨rfl, rfl, rfl, rfl⟩

theorem C4_invalid_create_rejected_witness :
    crear_producto ⟨"a", "b", 0, 5, none⟩ Almacen.init
        = (Response.validationError, Almacen.init) ∧
    Response.validationError.status = 422 ∧
    ((crear_producto ⟨"a", "b", 0, 5, none⟩ Almacen.init).2).productos.length
        = Almacen.init.productos.length ∧
    (obtener_productos ((crear_producto ⟨"a", "b", 0, 5, none⟩
        Almacen.init).2)).1
      = (obtener_productos Almacen.init).1 :=
  C4_invalid_create_rejected ⟨"a", "b", 0, 5, none⟩ Almacen.init
    (Or.inl (le_refl 0))

/-- C6: every endpoint addressed at an id that is not in the store answers
404 with detail "Producto no encontrado" and leaves the store unchanged; in
particular an id just deleted is no longer in the store. -/
theorem C6_absent_id_404 (db : Almacen) (pid : Int) (u : ProductoUpdate)
    (habs : db.get pid = none) (hu : u.valid = true) :
    obtener_producto pid db
        = (Response.notFound "Producto no encontrado", db) ∧
    actualizar_producto pid u db
        = (Response.notFound "Producto no encontrado", db) ∧
    eliminar_producto pid db
        = (Response.notFound "Producto no encontrado", db) ∧
    (Response.notFound "Producto no encontrado").status = 404 ∧
    ∀ (db' : Almacen) (i : Int), ((eliminar_producto i db').2).get i = none := by
  refine ⟨?_, ?_, ?_, rfl, fun db' i => get_after_delete db' i⟩
  · simp [obtener_producto, habs]
  · simp [actualizar_producto, hu, habs]
  · simp [eliminar_producto, habs]

theorem C6_absent_id_404_witness :
    obtener_producto 7 dbSample
        = (Response.notFound "Producto no encontrado", dbSample) ∧
    actualizar_producto 7 uNullPrecio dbSample
        = (Response.notFound "Producto no encontrado", dbSample) ∧
    eliminar_producto 7 dbSample
        = (Response.notFound "Producto no encontrado", dbSample) ∧
    (Response.notFound "Producto no encontrado").status = 404 ∧
    ∀ (db' : Almacen) (i : Int), ((eliminar_producto i db').2).get i = none :=
  C6_absent_id_404 dbSample 7 uNullPrecio (by decide) (by decide)

/-- C10: the update body `{"precio": null}` passes Pydantic validation (every
`ProductoUpdate` field is optional and its bounds apply only to non-null
values), and because `model_dump(exclude_unset=True)` keeps explicitly-null
fields, the `setattr` loop writes the null onto the ORM entity; the request
is never answered 422. -/
theorem C10_explicit_null_written :
    ProductoUpdate.valid uNullPrecio = true ∧
    (applyUpdate pSample uNullPrecio).precio = none ∧
    (actualizar_producto 1 uNullPrecio dbSample).1
        ≠ Response.validationError := by
  decide

/-- C1: the `setattr` loop writes only the fields set in the request body,
so every field absent from the body keeps its stored value; in particular a
`PUT` whose body is exactly `{"stock": 10}` answers 200 with the stored
entity whose stock is 10 and whose name, description, price and category are
untouched, and the store keeps every other row as it was. -/
theorem C1_partial_update_frame (db : Almacen) (pid : Int) (p : Producto)
    (u : ProductoUpdate) (hwf : db.WF) (hget : db.get pid = some p) :
    (u.nombre = none → (applyUpdate p u).nombre = some p.nombre) ∧
    (u.descripcion = none →
      (applyUpdate p u).descripcion = some p.descripcion) ∧
    (u.precio = none → (applyUpdate p u).precio = some p.precio) ∧
    (u.stock = none → (applyUpdate p u).stock = some p.stock) ∧
    (u.categoria = none → (applyUpdate p u).categoria = p.categoria) ∧
    actualizar_producto pid (stockOnly 10) db
      = (Response.ok { p with stock := 10 },
          ⟨db.productos.map
              (fun q => if q.id == pid then { p with stock := 10 } else q),
            db.nextId⟩) := by
  obtain ⟨hmem, hid⟩ := Almacen.get_mem db pid p hget
  have hrow : rowOK p = true := (hwf.2.1 p hmem).2
  refine ⟨fun h => by simp [applyUpdate, h], fun h => by simp [applyUpdate, h],
    fun h => by simp [applyUpdate, h], fun h => by simp [applyUpdate, h],
    fun h => by simp [applyUpdate, h], ?_⟩
  have hv : (stockOnly 10).valid = true := by decide
  have hc : commitRow (applyUpdate p (stockOnly 10))
      = some { p with stock := 10 } := by
    have hfits : rowFits (applyUpdate p (stockOnly 10)) = true := by
      simpa [applyUpdate, stockOnly, rowFits, rowOK] using hrow
    simp [applyUpdate, stockOnly, commitRow] at hfits ⊢
    simp [hfits]
  simp [actualizar_producto, hv, hget, hc]

theorem C1_partial_update_frame_witness :
    (uNullPrecio.nombre = none →
      (applyUpdate pSample uNullPrecio).nombre = some pSample.nombre) ∧
    (uNullPrecio.descripcion = none →
      (applyUpdate pSample uNullPrecio).descripcion
        = some pSample.descripcion) ∧
    (uNullPrecio.precio = none →
      (applyUpdate pSample uNullPrecio).precio = some pSample.precio) ∧
    (uNullPrecio.stock = none →
      (applyUpdate pSample uNullPrecio).stock = some pSample.stock) ∧
    (uNullPrecio.categoria = none →
      (applyUpdate pSample uNullPrecio).categoria = pSample.categoria) ∧
    actualizar_producto 1 (stockOnly 10) dbSample
      = (Response.ok { pSample with stock := 10 },
          ⟨dbSample.productos.map
              (fun q => if q.id == 1 then { pSample with stock := 10 } else q),
            dbSample.nextId⟩) :=
  C1_partial_update_frame dbSample 1 pSample uNullPrecio
    (by refine ⟨by decide, ?_, by decide⟩; decide) (by decide)

/-- C3: after a successful creation, a GET with the returned id and no
intervening mutation answers 200 with exactly the entity the creation
returned, whose fields equal the creation input. -/
theorem C3_get_after_create (db : Almacen) (c : ProductoCreate)
    (p : Producto) (db2 : Almacen) (hwf : db.WF)
    (h : crear_producto c db = (Response.created p, db2)) :
    obtener_producto p.id db2 = (Response.ok p, db2) ∧
    p.nombre = c.nombre ∧ p.descripcion = c.descripcion ∧
    p.precio = c.precio ∧ p.stock = c.stock ∧ p.categoria = c.categoria := by
  by_cases hg : goodCreate c = true
  · rw [crear_producto_good c db hg] at h
    injection h with h1 h2
    injection h1 with h1
    subst h1
    subst h2
    have hfind : (extendDb c db).get (newProd c db).id
        = some (newProd c db) := by
      simp only [Almacen.get, extendDb]
      rw [List.find?_append]
      have hnone : db.productos.find?
          (fun q => q.id == (newProd c db).id) = none := by
        rw [List.find?_eq_none]
        intro x hx
        have hlt : x.id < db.nextId := (hwf.2.1 x hx).1
        simp [newProd]
        omega
      rw [hnone]
      simp
    refine ⟨?_, rfl, rfl, rfl, rfl, rfl⟩
    simp [obtener_producto, hfind]
  · exfalso
    have hg' : goodCreate c = false := by
      revert hg; cases goodCreate c <;> simp
    have hbad := (crear_producto_not_good c db hg').2 p
    rw [h] at hbad
    exact hbad rfl

theorem C3_get_after_create_witness :
    obtener_producto pSample.id dbSample = (Response.ok pSample, dbSample) ∧
    pSample.nombre = cSample.nombre ∧
    pSample.descripcion = cSample.descripcion ∧
    pSample.precio = cSample.precio ∧
    pSample.stock = cSample.stock ∧
    pSample.categoria = cSample.categoria :=
  C3_get_after_create Almacen.init cSample pSample dbSample
    ⟨by decide, by decide, by decide⟩ (by decide)

/-- C7: deleting a present id removes exactly the row with that id — a hard
delete, no tombstone: every other row survives, the id no longer resolves,
the row count drops — and answers 204, whose body is empty by construction;
the outcome (204 versus 404) reports exactly whether a row was removed. -/
theorem C7_delete_present (db : Almacen) (pid : Int) (p : Producto)
    (hget : db.get pid = some p) :
    eliminar_producto pid db
      = (Response.noContent,
          ⟨db.productos.filter (fun q => q.id != pid), db.nextId⟩) ∧
    Response.noContent.status = 204 ∧
    (∀ q ∈ db.productos, q.id ≠ pid →
        q ∈ ((eliminar_producto pid db).2).productos) ∧
    ((eliminar_producto pid db).2).get pid = none ∧
    ((eliminar_producto pid db).2).productos.length
        < db.productos.length ∧
    ∀ (db' : Almacen) (i : Int),
      ((eliminar_producto i db').1 = Response.noContent
        ↔ (db'.get i).isSome) := by
  have he : eliminar_producto pid db
      = (Response.noContent,
          ⟨db.productos.filter (fun q => q.id != pid), db.nextId⟩) := by
    simp [eliminar_producto, hget]
  obtain ⟨hmem, hid⟩ := Almacen.get_mem db pid p hget
  refine ⟨he, rfl, ?_, get_after_delete db pid, ?_, ?_⟩
  · intro q hq hne
    rw [he]
    simp [List.mem_filter, hq, hne]
  · rw [he]
    simp only [List.length_filter_lt_length_iff_exists]
    exact ⟨p, hmem, by simp [hid]⟩
  · intro db' i
    rcases hg : db'.get i with _ | q
    · simp [eliminar_producto, hg]
    · simp [eliminar_producto, hg]

theorem C7_delete_present_witness :
    eliminar_producto 1 dbSample
      = (Response.noContent,
          ⟨dbSample.productos.filter (fun q => q.id != 1),
            dbSample.nextId⟩) ∧
    Response.noContent.status = 204 ∧
    (∀ q ∈ dbSample.productos, q.id ≠ 1 →
        q ∈ ((eliminar_producto 1 dbSample).2).productos) ∧
    ((eliminar_producto 1 dbSample).2).get 1 = none ∧
    ((eliminar_producto 1 dbSample).2).productos.length
        < dbSample.productos.length ∧
    ∀ (db' : Almacen) (i : Int),
      ((eliminar_producto i db').1 = Response.noContent
        ↔ (db'.get i).isSome) :=
  C7_delete_present dbSample 1 pSample (by decide)

theorem update_valid_spec (u : ProductoUpdate) (h : u.valid = true) :
    (∀ s, u.nombre = some (some s) → 1 ≤ s.length) ∧
    (∀ s, u.descripcion = some (some s) → 1 ≤ s.length) ∧
    (∀ r, u.precio = some (some r) → 0 < r) ∧
    (∀ n, u.stock = some (some n) → 0 ≤ n) := by
  rw [ProductoUpdate.valid] at h
  simp only [Bool.and_eq_true] at h
  obtain ⟨⟨⟨hn, hd⟩, hp⟩, hs⟩ := h
  refine ⟨fun s hx => ?_, fun s hx => ?_, fun r hx => ?_, fun n hx => ?_⟩
  · rw [hx] at hn; simp [optValid] at hn; exact hn.1
  · rw [hx] at hd; simp [optValid] at hd; exact hd.1
  · rw [hx] at hp; simpa [optValid] using hp
  · rw [hx] at hs; simpa [optValid] using hs

/-- C8: the id comes from the store's sequence at creation (the creation body
has no id field, so callers cannot supply one), it is fresh with respect to
every stored row, and no update can change it: the `setattr` loop never
writes `id`, and the stored multiset of ids is untouched by any update. -/
theorem C8_id_assigned_once (db : Almacen) (c : ProductoCreate) (pid : Int)
    (u : ProductoUpdate) (p : Producto) (hwf : db.WF)
    (hg : goodCreate c = true) :
    crear_producto c db
        = (Response.created (newProd c db), extendDb c db) ∧
    (newProd c db).id = db.nextId ∧
    (∀ q ∈ db.productos, q.id ≠ (newProd c db).id) ∧
    (applyUpdate p u).id = p.id ∧
    ((actualizar_producto pid u db).2).productos.map (fun q => q.id)
        = db.productos.map (fun q => q.id) := by
  refine ⟨crear_producto_good c db hg, rfl, ?_, rfl, ?_⟩
  · intro q hq
    have hlt := (hwf.2.1 q hq).1
    simp only [newProd]
    omega
  · cases hv : u.valid with
    | false => simp [actualizar_producto, hv]
    | true =>
      rcases hget : db.get pid with _ | p'
      · simp [actualizar_producto, hv, hget]
      · rcases hc : commitRow (applyUpdate p' u) with _ | p2
        · simp [actualizar_producto, hv, hget, hc]
        · have hid2 : p2.id = pid := by
            obtain ⟨-, -, -, -, -, hidr, -⟩ := commitRow_some _ _ hc
            rw [hidr]
            exact (Almacen.get_mem db pid p' hget).2
          have hst : ((actualizar_producto pid u db).2).productos
              = db.productos.map (fun q => if q.id == pid then p2 else q) := by
            simp [actualizar_producto, hv, hget, hc]
          rw [hst, List.map_map]
          apply List.map_congr_left
          intro q hq
          by_cases hqe : q.id = pid
          · simp [Function.comp, hqe, hid2]
          · simp [Function.comp, hqe]

theorem C8_id_assigned_once_witness :
    crear_producto cSample dbSample
        = (Response.created (newProd cSample dbSample),
            extendDb cSample dbSample) ∧
    (newProd cSample dbSample).id = dbSample.nextId ∧
    (∀ q ∈ dbSample.productos, q.id ≠ (newProd cSample dbSample).id) ∧
    (applyUpdate pSample (stockOnly 10)).id = pSample.id ∧
    ((actualizar_producto 1 (stockOnly 10) dbSample).2).productos.map
        (fun q => q.id)
      = dbSample.productos.map (fun q => q.id) :=
  C8_id_assigned_once dbSample cSample 1 (stockOnly 10) pSample
    ⟨by decide, by decide, by decide⟩ (by decide)

/-- C9: the §3 data invariant — every stored row has `precio > 0`,
`stock ≥ 0` and non-empty `nombre`/`descripcion` — is preserved by every
create request and every update request, whatever the handler answers:
rejected or failing requests leave the store unchanged, and accepted ones
only store values that passed validation or were already stored. -/
theorem C9_data_invariant (db : Almacen) (c : ProductoCreate) (pid : Int)
    (u : ProductoUpdate) (hinv : DataInv db) :
    DataInv ((crear_producto c db).2) ∧
    DataInv ((actualizar_producto pid u db).2) := by
  constructor
  · by_cases hg : goodCreate c = true
    · rw [crear_producto_good c db hg]
      intro q hq
      rcases List.mem_append.1 hq with hq | hq
      · exact hinv q hq
      · have hq' : q = newProd c db := by simpa using hq
        subst hq'
        have hv : c.valid = true := by
          rw [goodCreate, Bool.and_eq_true] at hg; exact hg.1
        obtain ⟨h1, -, h3, -, h5, h6⟩ := create_valid_spec c hv
        exact ⟨h5, h6, ne_empty_of_one_le_length h1,
          ne_empty_of_one_le_length h3⟩
    · have hg' : goodCreate c = false := by
        revert hg; cases goodCreate c <;> simp
      rw [(crear_producto_not_good c db hg').1]
      exact hinv
  · cases hv : u.valid with
    | false => simpa [actualizar_producto, hv] using hinv
    | true =>
      rcases hget : db.get pid with _ | p'
      · simpa [actualizar_producto, hv, hget] using hinv
      · rcases hc : commitRow (applyUpdate p' u) with _ | p2
        · simpa [actualizar_producto, hv, hget, hc] using hinv
        · have hst : ((actualizar_producto pid u db).2).productos
              = db.productos.map (fun q => if q.id == pid then p2 else q) := by
            simp [actualizar_producto, hv, hget, hc]
          intro q hq
          rw [hst] at hq
          rcases List.mem_map.1 hq with ⟨q0, hq0, hrepl⟩
          by_cases hqe : q0.id = pid
          · have hq2 : q = p2 := by rw [← hrepl]; simp [hqe]
            subst hq2
            obtain ⟨hmem', -⟩ := Almacen.get_mem db pid p' hget
            obtain ⟨ip, is, inn, ind⟩ := hinv p' hmem'
            obtain ⟨hn, hd, hpr, hsk, -, -, -⟩ := commitRow_some _ _ hc
            obtain ⟨vn, vd, vp, vs⟩ := update_valid_spec u hv
            refine ⟨?_, ?_, ?_, ?_⟩
            · rcases hup : u.precio with _ | op
              · simp [applyUpdate, hup] at hpr
                rw [← hpr]; exact ip
              · simp [applyUpdate, hup] at hpr
                subst hpr
                exact vp _ hup
            · rcases hus : u.stock with _ | os
              · simp [applyUpdate, hus] at hsk
                rw [← hsk]; exact is
              · simp [applyUpdate, hus] at hsk
                subst hsk
                exact vs _ hus
            · rcases hun : u.nombre with _ | sn
              · simp [applyUpdate, hun] at hn
                rw [← hn]; exact inn
              · simp [applyUpdate, hun] at hn
                subst hn
                exact ne_empty_of_one_le_length (vn _ hun)
            · rcases hud : u.descripcion with _ | od
              · simp [applyUpdate, hud] at hd
                rw [← hd]; exact ind
              · simp [applyUpdate, hud] at hd
                subst hd
                exact ne_empty_of_one_le_length (vd _ hud)
          · have hq2 : q = q0 := by rw [← hrepl]; simp [hqe]
            subst hq2
            exact hinv q hq0

theorem C9_data_invariant_witness :
    DataInv ((crear_producto cSample dbSample).2) ∧
    DataInv ((actualizar_producto 1 (stockOnly 10) dbSample).2) :=
  C9_data_invariant dbSample cSample 1 (stockOnly 10)
    (by
      intro p hp
      have hps : p = pSample := by simpa [dbSample] using hp
      subst hps
      exact ⟨by decide, by decide, by decide, by decide⟩)

instance : IsTotal Producto (fun p q => p.id ≤ q.id) :=
  ⟨fun a b => Int.le_total a.id b.id⟩

instance : IsTrans Producto (fun p q => p.id ≤ q.id) :=
  ⟨fun _ _ _ h h' => le_trans h h'⟩

theorem runCreates_length (cs : List ProductoCreate) (db : Almacen)
    (hcs : ∀ c ∈ cs, goodCreate c = true) :
    (runCreates cs db).productos.length
      = db.productos.length + cs.length := by
  induction cs generalizing db with
  | nil => simp [runCreates]
  | cons c rest ih =>
      have hc := hcs c (List.mem_cons_self c rest)
      have hstep : runCreates (c :: rest) db
          = runCreates rest (extendDb c db) := by
        simp [runCreates, crear_producto_good c db hc]
      rw [hstep, ih (extendDb c db)
        (fun c' hc' => hcs c' (List.mem_cons_of_mem c hc'))]
      have hlen : (extendDb c db).productos.length
          = db.productos.length + 1 := by
        simp [extendDb]
      rw [hlen, List.length_cons]
      omega

theorem createdIds_cons_good (c : ProductoCreate) (rest : List ProductoCreate)
    (db : Almacen) (hg : goodCreate c = true) :
    createdIds (c :: rest) db
      = db.nextId :: createdIds rest (extendDb c db) := by
  simp only [createdIds]
  rw [crear_producto_good c db hg]
  rfl

theorem createdIds_cons_bad (c : ProductoCreate) (rest : List ProductoCreate)
    (db : Almacen) (hg : goodCreate c = false) :
    createdIds (c :: rest) db = createdIds rest db := by
  obtain ⟨hdb, hne⟩ := crear_producto_not_good c db hg
  simp only [createdIds]
  rw [hdb]

theorem createdIds_lower_bound (cs : List ProductoCreate) (db : Almacen) :
    ∀ i ∈ createdIds cs db, db.nextId ≤ i := by
  induction cs generalizing db with
  | nil => intro i hi; simp [createdIds] at hi
  | cons c rest ih =>
      intro i hi
      by_cases hg : goodCreate c = true
      · rw [createdIds_cons_good c rest db hg] at hi
        rcases List.mem_cons.1 hi with h | h
        · omega
        · have h1 := ih (extendDb c db) i h
          have h2 : (extendDb c db).nextId = db.nextId + 1 := rfl
          omega
      · have hg' : goodCreate c = false := by
          revert hg; cases goodCreate c <;> simp
        rw [createdIds_cons_bad c rest db hg'] at hi
        exact ih db i hi

theorem createdIds_pairwise (cs : List ProductoCreate) (db : Almacen) :
    (createdIds cs db).Pairwise (fun i j => i < j) := by
  induction cs generalizing db with
  | nil => simp [createdIds]
  | cons c rest ih =>
      by_cases hg : goodCreate c = true
      · rw [createdIds_cons_good c rest db hg]
        refine List.Pairwise.cons ?_ (ih (extendDb c db))
        intro j hj
        have h1 := createdIds_lower_bound rest (extendDb c db) j hj
        have h2 : (extendDb c db).nextId = db.nextId + 1 := rfl
        omega
      · have hg' : goodCreate c = false := by
          revert hg; cases goodCreate c <;> simp
        rw [createdIds_cons_bad c rest db hg']
        exact ih db

/-- C5: the listing endpoint answers 200 with exactly the stored rows in
ascending id order (strictly ascending on a well-formed state), the empty
state lists nothing, and a run of N accepted creations grows the table by
exactly N rows. -/
theorem C5_listing_sorted (db : Almacen) (cs : List ProductoCreate)
    (hwf : db.WF) (hcs : ∀ c ∈ cs, goodCreate c = true) :
    obtener_productos db = (Response.okList (sortById db.productos), db) ∧
    (Response.okList (sortById db.productos)).status = 200 ∧
    (sortById db.productos).Perm db.productos ∧
    List.Sorted (fun p q : Producto => p.id ≤ q.id) (sortById db.productos) ∧
    (sortById db.productos).Pairwise (fun p q => p.id < q.id) ∧
    obtener_productos Almacen.init = (Response.okList [], Almacen.init) ∧
    (runCreates cs db).productos.length
        = db.productos.length + cs.length := by
  have hperm : (sortById db.productos).Perm db.productos :=
    List.perm_insertionSort (fun p q : Producto => p.id ≤ q.id) db.productos
  have hsorted : List.Sorted (fun p q : Producto => p.id ≤ q.id)
      (sortById db.productos) :=
    List.sorted_insertionSort (fun p q : Producto => p.id ≤ q.id) db.productos
  have hnodup : ((sortById db.productos).map (fun p => p.id)).Nodup :=
    ((hperm.map (fun p => p.id)).nodup_iff).2 hwf.2.2
  have hne : (sortById db.productos).Pairwise (fun p q => p.id ≠ q.id) :=
    List.pairwise_map.1 hnodup
  refine ⟨rfl, rfl, hperm, hsorted, ?_, rfl, runCreates_length cs db hcs⟩
  exact (hsorted.and hne).imp (fun h => lt_of_le_of_ne h.1 h.2)

theorem C5_listing_sorted_witness :
    obtener_productos dbSample
        = (Response.okList (sortById dbSample.productos), dbSample) ∧
    (Response.okList (sortById dbSample.productos)).status = 200 ∧
    (sortById dbSample.productos).Perm dbSample.productos ∧
    List.Sorted (fun p q : Producto => p.id ≤ q.id)
        (sortById dbSample.productos) ∧
    (sortById dbSample.productos).Pairwise (fun p q => p.id < q.id) ∧
    obtener_productos Almacen.init = (Response.okList [], Almacen.init) ∧
    (runCreates [cSample] dbSample).productos.length
        = dbSample.productos.length + [cSample].length :=
  C5_listing_sorted dbSample [cSample]
    ⟨by decide, by decide, by decide⟩
    (by intro c hc; simp at hc; subst hc; decide)

/-- C2 (amended): for every creation input satisfying the field constraints
*and whose categoria, when present, is at most 50 characters* (the
`String(50)` column bound, which validation does not check), POST answers
201 with an entity equal to the input plus a store-assigned id that is
positive, distinct from every stored id, and — across any run of
creations — strictly increasing, hence never returned before. -/
theorem C2_amended_create (db : Almacen) (c : ProductoCreate)
    (cs : List ProductoCreate) (hwf : db.WF) (hg : goodCreate c = true) :
    crear_producto c db
        = (Response.created (newProd c db), extendDb c db) ∧
    (Response.created (newProd c db)).status = 201 ∧
    (newProd c db).nombre = c.nombre ∧
    (newProd c db).descripcion = c.descripcion ∧
    (newProd c db).precio = c.precio ∧
    (newProd c db).stock = c.stock ∧
    (newProd c db).categoria = c.categoria ∧
    (newProd c db).id = db.nextId ∧
    0 < (newProd c db).id ∧
    (∀ q ∈ db.productos, q.id ≠ (newProd c db).id) ∧
    (createdIds cs db).Pairwise (fun i j => i < j) ∧
    (∀ i ∈ createdIds cs db, 0 < i) := by
  refine ⟨crear_producto_good c db hg, rfl, rfl, rfl, rfl, rfl, rfl, rfl,
    ?_, ?_, createdIds_pairwise cs db, ?_⟩
  · have h1 := hwf.1
    simp only [newProd]
    omega
  · intro q hq
    have h1 := (hwf.2.1 q hq).1
    simp only [newProd]
    omega
  · intro i hi
    have h1 := createdIds_lower_bound cs db i hi
    have h2 := hwf.1
    omega

theorem C2_amended_create_witness :
    crear_producto cSample dbSample
        = (Response.created (newProd cSample dbSample),
            extendDb cSample dbSample) ∧
    (Response.created (newProd cSample dbSample)).status = 201 ∧
    (newProd cSample dbSample).nombre = cSample.nombre ∧
    (newProd cSample dbSample).descripcion = cSample.descripcion ∧
    (newProd cSample dbSample).precio = cSample.precio ∧
    (newProd cSample dbSample).stock = cSample.stock ∧
    (newProd cSample dbSample).categoria = cSample.categoria ∧
    (newProd cSample dbSample).id = dbSample.nextId ∧
    0 < (newProd cSample dbSample).id ∧
    (∀ q ∈ dbSample.productos, q.id ≠ (newProd cSample dbSample).id) ∧
    (createdIds [cSample] dbSample).Pairwise (fun i j => i < j) ∧
    (∀ i ∈ createdIds [cSample] dbSample, 0 < i) :=
  C2_amended_create dbSample cSample [cSample]
    ⟨by decide, by decide, by decide⟩ (by decide)

/-- C2 counterexample: this creation input satisfies every constraint the
claim lists (name length 1–100, description length 1–350, price > 0,
stock ≥ 0), yet the response is HTTP 500, not 201: its 51-character categoria
passes validation (which never bounds categoria) and then overflows the
`String(50)` column at insert time. -/
theorem C2_categoria_overflow_counterexample :
    ProductoCreate.valid c2bad = true ∧
    crear_producto c2bad Almacen.init = (Response.serverError, Almacen.init) ∧
    (crear_producto c2bad Almacen.init).1.status = 500 := by
  decide
